import Mathlib

/-!
Verification of the `ai-faucet` natural-language testnet faucet.

The repository has two generations of the program:
* `src/index.ts` — the legacy single-network (Sepolia) agent, with a regex
  fallback in its response parser and a 5000 ms `setInterval` status-polling
  loop;
* the current multi-network agent (`index.ts` rewritten against `networks.ts`),
  with a network registry, a network selector, a stricter response parser and a
  sequential multi-network dispatch loop.

Both are embedded below.  External collaborators (the chain client library
`viem`, the language-model service, `JSON.parse`) are modelled as oracles or as
small models of the library functions actually called (`parseEther`,
`formatEther`).  All JavaScript string operations used by the code are
re-implemented on `List Char` so that every definition evaluates by kernel
reduction.
-/

namespace AIFaucet

/-! ## JavaScript string primitives (ASCII fragment used by the program) -/

/-- The backtick character (written via its code point to keep the sources
readable). -/
def tick : Char := Char.ofNat 96

/-- JavaScript whitespace class `\s` restricted to the ASCII part that can
occur in this program's data: space, tab, line feed, carriage return, vertical
tab, form feed. -/
def wsChar (c : Char) : Bool :=
  c = ' ' || c = '\t' || c = '\n' || c = '\r' || c = Char.ofNat 11 || c = Char.ofNat 12

/-- JavaScript line terminators (the characters `.` does not match). -/
def lineTerm (c : Char) : Bool := c = '\n' || c = '\r'

/-- `String.prototype.toLowerCase` on the ASCII strings this program handles:
lower-case each character. -/
def jsToLower (s : String) : String := String.mk (s.data.map Char.toLower)

/-- Boolean prefix test on character lists (JavaScript `startsWith`). -/
def prefixB : List Char → List Char → Bool
  | [], _ => true
  | _ :: _, [] => false
  | a :: as, b :: bs => a == b && prefixB as bs

/-- Boolean substring test on character lists. -/
def infixB (p : List Char) : List Char → Bool
  | [] => prefixB p []
  | l@(_ :: rest) => prefixB p l || infixB p rest

/-- JavaScript `String.prototype.includes`: `includes s sub` is true when
`sub` occurs contiguously inside `s`. -/
def includes (s sub : String) : Bool := infixB sub.data s.data

/-- JavaScript `String.prototype.trim` (ASCII whitespace). -/
def jsTrim (s : String) : String :=
  String.mk (((s.data.dropWhile wsChar).reverse.dropWhile wsChar).reverse)

theorem prefixB_iff (p l : List Char) : prefixB p l = true ↔ p <+: l := by
  induction p generalizing l with
  | nil => simp [prefixB]
  | cons a as ih =>
    cases l with
    | nil => simp [prefixB]
    | cons b bs =>
      simp only [prefixB, Bool.and_eq_true, beq_iff_eq, ih, List.prefix_cons_iff]
      constructor
      · rintro ⟨rfl, h⟩
        exact Or.inr ⟨as, rfl, h⟩
      · rintro (h | ⟨t, ht, h⟩)
        · cases h
        · cases ht
          exact ⟨rfl, h⟩

theorem infixB_iff (p l : List Char) : infixB p l = true ↔ p <:+: l := by
  induction l with
  | nil => simp [infixB, prefixB_iff]
  | cons b bs ih =>
    simp only [infixB, Bool.or_eq_true, prefixB_iff, ih, List.infix_cons_iff]

theorem includes_append_middle (a b c : String) : includes (a ++ b ++ c) b = true := by
  have hdata : (a ++ b ++ c).data = a.data ++ (b.data ++ c.data) := by
    show (a.data ++ b.data) ++ c.data = _
    simp [List.append_assoc]
  unfold includes
  rw [hdata, infixB_iff]
  exact ⟨a.data, c.data, by simp⟩

/-! ## Network registry (`networks.ts`)

`createNetworkConfig` also builds a read client and a signing-client factory;
those wrap the external RPC transport and carry no data beyond the chain, so
the embedding keeps only the chain parameters and the faucet policy. -/

/-- Chain parameters (the part of a `viem` `Chain` value the program reads). -/
structure ChainInfo where
  id : Nat
  name : String
  nativeSymbol : String
deriving DecidableEq

/-- Faucet policy attached to each registered network. -/
structure FaucetConfig where
  symbol : String
  amount : String
deriving DecidableEq

/-- One registry entry: chain parameters plus faucet policy. -/
structure NetworkConfig where
  chain : ChainInfo
  faucet : FaucetConfig
deriving DecidableEq

/-- `viem` chain constant `sepolia`. -/
def sepolia : ChainInfo := ⟨11155111, "Sepolia", "ETH"⟩

/-- `viem` chain constant `abstractTestnet`. -/
def abstractTestnet : ChainInfo := ⟨11124, "Abstract Testnet", "ETH"⟩

/-- `viem` chain constant `optimismSepolia`. -/
def optimismSepolia : ChainInfo := ⟨11155420, "OP Sepolia", "ETH"⟩

/-- `viem` chain constant `polygon`. -/
def polygonChain : ChainInfo := ⟨137, "Polygon", "POL"⟩

/-- The custom `shardeumAtomium` chain object defined in `networks.ts`. -/
def shardeumAtomium : ChainInfo := ⟨8082, "Shardeum Atomium", "SHM"⟩

/-- `createNetworkConfig(chain, faucetConfig)`. -/
def createNetworkConfig (chain : ChainInfo) (faucetConfig : FaucetConfig) : NetworkConfig :=
  ⟨chain, faucetConfig⟩

/-- The `networks` configuration object, in its source (insertion) order. -/
def networks : List (String × NetworkConfig) :=
  [("sepolia", createNetworkConfig sepolia ⟨"ETH", "0.01"⟩),
   ("abstract", createNetworkConfig abstractTestnet ⟨"ETH", "0.01"⟩),
   ("optimism-sepolia", createNetworkConfig optimismSepolia ⟨"ETH", "0.01"⟩),
   ("polygon", createNetworkConfig polygonChain ⟨"POL", "0.1"⟩),
   ("shardeum-atomium", createNetworkConfig shardeumAtomium ⟨"SHM", "100"⟩)]

/-- `getAvailableNetworks(): Object.keys(networks)` — registry enumeration
order. -/
def getAvailableNetworks : List String := networks.map Prod.fst

/-- The **own-property** part of `getNetwork(name): networks[name]`: the
entries written in the `networks` object literal.  Full JavaScript property
access also consults the prototype chain; that complete semantics is
`getNetworkJs` below. -/
def getNetwork (name : String) : Option NetworkConfig :=
  (networks.find? (fun p => p.1 == name)).map Prod.snd

/-- The value produced by the property access `networks[name]`: an own
property (a registered `NetworkConfig`), a member inherited from
`Object.prototype` (a truthy function or object value that is not a
`NetworkConfig`), or `undefined`. -/
inductive PropertyValue where
  | config (cfg : NetworkConfig)
  | inherited
  | undef
deriving DecidableEq

/-- The property names an object literal inherits from `Object.prototype`. -/
def objectPrototypeProps : List String :=
  ["constructor", "hasOwnProperty", "isPrototypeOf", "propertyIsEnumerable",
   "toLocaleString", "toString", "valueOf", "__defineGetter__", "__defineSetter__",
   "__lookupGetter__", "__lookupSetter__", "__proto__"]

/-- `getNetwork(name): networks[name]` with full JavaScript property-access
semantics: an own property wins; otherwise a member of `Object.prototype` is
inherited (truthy, not a `NetworkConfig`); otherwise the access yields
`undefined`.  The access is total and never throws. -/
def getNetworkJs (name : String) : PropertyValue :=
  match getNetwork name with
  | some cfg => PropertyValue.config cfg
  | none =>
    if name ∈ objectPrototypeProps then PropertyValue.inherited else PropertyValue.undef

/-! ## Network selector (`getNetworksFromInput`) -/

/-- `getNetworksFromInput` from the multi-network `index.ts`. -/
def getNetworksFromInput (input : String) : List String :=
  let inputLower := jsToLower input
  let availableNetworks := getAvailableNetworks
  if includes inputLower "both" || includes inputLower "all" then
    availableNetworks
  else
    availableNetworks.filter (fun network => includes inputLower (jsToLower network))

/-! ## JSON values

`JSON.parse` itself is external (the JavaScript runtime); the parsers below
take it as an oracle `String → Option Json` (`none` models a thrown
`SyntaxError`).  A parsed value is modelled by `Json`; objects produced by
`JSON.parse` have unique keys (later duplicates overwrite earlier ones), so
field access is association-list lookup. -/

/-- A JavaScript value produced by `JSON.parse`. -/
inductive Json where
  | null
  | bool (b : Bool)
  | num (n : Int)
  | str (s : String)
  | arr (xs : List Json)
  | obj (fields : List (String × Json))

/-- Property access `j[k]`; `none` models `undefined`.  Property access on a
primitive yields `undefined` (on `null` it throws, but in both parsers that
throw is caught and converted to the same failure as a falsy field, so the
observable behaviour is identical). -/
def getField (j : Json) (k : String) : Option Json :=
  match j with
  | .obj fields => lookupField fields k
  | _ => none
where
  lookupField : List (String × Json) → String → Option Json
    | [], _ => none
    | (k', v) :: rest, k => if k' = k then some v else lookupField rest k

/-- JavaScript truthiness of a parsed JSON value. -/
def truthy : Json → Bool
  | .null => false
  | .bool b => b
  | .num n => n != 0
  | .str s => s != ""
  | .arr _ => true
  | .obj _ => true

/-- Truthiness of a possibly-`undefined` property. -/
def truthyOpt : Option Json → Bool
  | none => false
  | some j => truthy j

mutual
/-- JavaScript `String(value)` coercion of a parsed JSON value (as applied by
`RegExp.prototype.test`). -/
def jsToString : Json → String
  | .null => "null"
  | .bool b => cond b "true" "false"
  | .num n => toString n
  | .str s => s
  | .obj _ => "[object Object]"
  | .arr xs => jsArrToString xs

/-- `Array.prototype.toString`: elements joined with `","`. -/
def jsArrToString : List Json → String
  | [] => ""
  | [x] => jsElemToString x
  | x :: y :: xs => jsElemToString x ++ "," ++ jsArrToString (y :: xs)

/-- One array element inside `join`: `null` becomes the empty string. -/
def jsElemToString : Json → String
  | .null => ""
  | .bool b => cond b "true" "false"
  | .num n => toString n
  | .str s => s
  | .obj _ => "[object Object]"
  | .arr xs => jsArrToString xs
end

/-- Coercion of a possibly-`undefined` property (`String(undefined)`). -/
def jsToStringOpt : Option Json → String
  | none => "undefined"
  | some j => jsToString j

/-! ## Code-fence stripping (multi-network parser, step 1)

`response.replace(/```json\n?|\n?```/g, '')`: a global leftmost-first scan; at
each position the engine tries, in order, ` ```json ` followed by an optional
newline, then an optional newline followed by ` ``` `. -/

/-- First alternative with its greedy optional newline. -/
def fenceOpenNl : List Char := "```json\n".data

/-- First alternative without the optional newline. -/
def fenceOpen : List Char := "```json".data

/-- Second alternative with its greedy optional newline. -/
def fenceNlClose : List Char := "\n```".data

/-- Second alternative with the optional newline empty. -/
def fenceTicks : List Char := "```".data

/-- Does one of the regex alternatives match at the head of `l`?  If so,
return the remaining input (the match is deleted). -/
def fenceMatch (l : List Char) : Option (List Char) :=
  if prefixB fenceOpenNl l then some (l.drop fenceOpenNl.length)
  else if prefixB fenceOpen l then some (l.drop fenceOpen.length)
  else if prefixB fenceNlClose l then some (l.drop fenceNlClose.length)
  else if prefixB fenceTicks l then some (l.drop fenceTicks.length)
  else none

/-- The global replace-with-empty scan.  `fuel` bounds the recursion by the
input length (every step consumes at least one character). -/
def stripFencesGo : Nat → List Char → List Char
  | _, [] => []
  | 0, _ :: _ => []
  | fuel + 1, c :: cs =>
    match fenceMatch (c :: cs) with
    | some rest => stripFencesGo fuel rest
    | none => c :: stripFencesGo fuel cs

/-- `response.replace(/```json\n?|\n?```/g, '')`. -/
def stripFences (s : String) : String :=
  String.mk (stripFencesGo s.data.length s.data)

/-! ## Multi-network response parser (`parseAIResponse` in the current
`index.ts`)

Failure taxonomy: the only two errors that escape the function are the
rethrown `'AI could not understand the request'` (`UnderstandingFailure`) and
the generic `'Failed to parse AI response. Please try again with a simpler
request.'` that the catch block substitutes for every other throw
(`MalformedResponse`). -/

/-- The two failures `parseAIResponse` can surface. -/
inductive ParseError where
  | understandingFailure
  | malformedResponse
deriving DecidableEq

/-- The character class `[a-fA-F0-9]`. -/
def hexDigit (c : Char) : Bool :=
  c.isDigit || ('a' ≤ c && c ≤ 'f') || ('A' ≤ c && c ≤ 'F')

/-- The address-format test `/^0x[a-fA-F0-9]{40}$/i.test(s)`. -/
def isValidAddress (s : String) : Bool :=
  match s.data with
  | '0' :: x :: rest =>
    (x == 'x' || x == 'X') && rest.length == 40 && rest.all hexDigit
  | _ => false

/-- The address test as applied to the `to` property (`RegExp.test` coerces
its argument to a string; an absent property coerces to `"undefined"`). -/
def addressTestPasses (f : Option Json) : Bool := isValidAddress (jsToStringOpt f)

/-- The validation pipeline applied to the parsed JSON value.  On success the
parsed value is returned unchanged (`return parsed`). -/
def parseAIResponseJson (j : Json) : Except ParseError Json :=
  if truthyOpt (getField j "error") then
    Except.error ParseError.understandingFailure
  else if !truthyOpt (getField j "to") || !truthyOpt (getField j "networks")
      || !truthyOpt (getField j "explanation") then
    Except.error ParseError.malformedResponse
  else if !addressTestPasses (getField j "to") then
    Except.error ParseError.malformedResponse
  else
    Except.ok j

/-- `parseAIResponse` of the multi-network `index.ts`: strip code fences,
trim, `JSON.parse` (the oracle `jsonParse`), then validate. -/
def parseAIResponse (jsonParse : String → Option Json) (response : String) :
    Except ParseError Json :=
  match jsonParse (jsTrim (stripFences response)) with
  | none => Except.error ParseError.malformedResponse
  | some j => parseAIResponseJson j

/-! ## Legacy response parser (`parseAIResponse` in `src/index.ts`)

The legacy parser JSON-decodes the raw response, checks that `to`, `amount`
and `explanation` are strings, and strips a trailing `ETH` unit from the
amount.  Any throw (decode failure or shape failure) lands in the catch block,
which attempts the regex extractors `/to:\s*([0-9a-fA-Fx]+)/`,
`/amount:\s*([\d.]+)/` and `/explanation:\s*(.+)/` before giving up. -/

/-- The structured intent the legacy parser returns. -/
structure LegacyIntent where
  toAddr : String
  amount : String
  explanation : String
deriving DecidableEq

/-- `amount.replace(/\s*ETH\s*$/i, '')`: delete an optional-whitespace,
`ETH` (case-insensitive), optional-whitespace suffix. -/
def stripEthSuffix (s : String) : String :=
  String.mk (stripEthSuffixRev s.data.reverse).reverse
where
  /-- Works on the reversed character list: trailing whitespace, then the
  reversed `ETH`, then the whitespace before it. -/
  stripEthSuffixRev (r : List Char) : List Char :=
    match r.dropWhile wsChar with
    | h :: t :: e :: rest =>
      if (h == 'h' || h == 'H') && (t == 't' || t == 'T') && (e == 'e' || e == 'E') then
        rest.dropWhile wsChar
      else r
    | _ => r

/-- The character class `[0-9a-fA-Fx]` of the `to:` extractor. -/
def toCaptureChar (c : Char) : Bool := hexDigit c || c == 'x'

/-- The character class `[\d.]` of the `amount:` extractor. -/
def amountCaptureChar (c : Char) : Bool := c.isDigit || c == '.'

/-- Attempt the literal-then-class match anchored at the head of `l`. -/
def tryLitClassAt (lit : List Char) (cls : Char → Bool) (l : List Char) :
    Option (List Char) :=
  if prefixB lit l then
    let afterWs := (l.drop lit.length).dropWhile wsChar
    let cap := afterWs.takeWhile cls
    if cap.isEmpty then none else some cap
  else none

/-- Generic engine for `/lit\s*([cls]+)/` where `cls` contains no whitespace
character: scan left to right; at each position require the literal, skip
whitespace greedily (no backtracking can help, since the class rejects
whitespace), and capture a non-empty run of class characters. -/
def scanLitClass (lit : List Char) (cls : Char → Bool) : List Char → Option (List Char)
  | [] => none
  | l@(_ :: rest) =>
    match tryLitClassAt lit cls l with
    | some cap => some cap
    | none => scanLitClass lit cls rest

/-- `response.match(/to:\s*([0-9a-fA-Fx]+)/)`, capture group. -/
def matchToPattern (response : String) : Option String :=
  (scanLitClass "to:".data toCaptureChar response.data).map String.mk

/-- `response.match(/amount:\s*([\d.]+)/)`, capture group. -/
def matchAmountPattern (response : String) : Option String :=
  (scanLitClass "amount:".data amountCaptureChar response.data).map String.mk

/-- Head-anchored `(.+)` capture: succeeds when the first character is not a
line terminator, capturing greedily up to the end of the line. -/
def dotPlusCapture (r : List Char) : Option (List Char) :=
  match r with
  | c :: _ => if lineTerm c then none else some (r.takeWhile (fun d => !lineTerm d))
  | [] => none

/-- Backtracking for `\s*(.+)`: the engine first lets `\s*` swallow the whole
whitespace run (`j` characters) and then gives characters back one at a time
until `(.+)` can start. -/
def backtrackDotPlus (rest : List Char) : Nat → Option (List Char)
  | 0 => dotPlusCapture rest
  | j + 1 =>
    match dotPlusCapture (rest.drop (j + 1)) with
    | some cap => some cap
    | none => backtrackDotPlus rest j

/-- Attempt `explanation:\s*(.+)` anchored at the head of `l`. -/
def tryExplanationAt (l : List Char) : Option (List Char) :=
  if prefixB "explanation:".data l then
    let rest := l.drop "explanation:".data.length
    backtrackDotPlus rest (rest.takeWhile wsChar).length
  else none

/-- The left-to-right scan for the `explanation:` extractor. -/
def scanExplanation : List Char → Option (List Char)
  | [] => none
  | l@(_ :: rest) =>
    match tryExplanationAt l with
    | some cap => some cap
    | none => scanExplanation rest

/-- `response.match(/explanation:\s*(.+)/)`, capture group. -/
def matchExplanationPattern (response : String) : Option String :=
  (scanExplanation response.data).map String.mk

/-- The happy path of the legacy parser: the parsed value must have string
`to`, `amount` and `explanation` properties; the amount loses a trailing
`ETH` unit. -/
def legacyDecode (j : Json) : Option LegacyIntent :=
  match getField j "to", getField j "amount", getField j "explanation" with
  | some (.str toAddr), some (.str amount), some (.str explanation) =>
    some ⟨toAddr, stripEthSuffix amount, explanation⟩
  | _, _, _ => none

/-- The catch block of the legacy parser: the three regex extractors must all
match, otherwise `'Failed to parse AI response'` is thrown. -/
def legacyFallback (response : String) : Except ParseError LegacyIntent :=
  match matchToPattern response, matchAmountPattern response,
      matchExplanationPattern response with
  | some toAddr, some amount, some explanation =>
    Except.ok ⟨toAddr, amount, jsTrim explanation⟩
  | _, _, _ => Except.error ParseError.malformedResponse

/-- `parseAIResponse` of the legacy `src/index.ts`. -/
def parseAIResponseLegacy (jsonParse : String → Option Json) (response : String) :
    Except ParseError LegacyIntent :=
  match jsonParse response with
  | some j =>
    match legacyDecode j with
    | some intent => Except.ok intent
    | none => legacyFallback response
  | none => legacyFallback response

/-! ## Models of the `viem` unit helpers (external library) -/

/-- Numeric value of a digit string (`[]` maps to `0`, as `BigInt('')` does). -/
def natOfDigits (l : List Char) : Nat :=
  l.foldl (fun a c => a * 10 + (c.toNat - '0'.toNat)) 0

/-- Model of `viem`'s `parseEther`: a decimal string in ether to its value in
wei (18 decimals).  `none` models the throw on a string that is not a plain
decimal numeral.  (The library also accepts signed values and rounds
fractions beyond 18 digits; the faucet's amounts exercise neither.) -/
def parseEther (s : String) : Option Nat :=
  match s.data.span (fun c => c != '.') with
  | (intPart, []) =>
    if intPart.all Char.isDigit then some (natOfDigits intPart * 10 ^ 18) else none
  | (intPart, _ :: fracPart) =>
    if intPart.all Char.isDigit && fracPart.all Char.isDigit && fracPart.length ≤ 18 then
      some (natOfDigits intPart * 10 ^ 18 + natOfDigits fracPart * 10 ^ (18 - fracPart.length))
    else none

/-- Left-pad with `'0'` to 18 characters. -/
def padFrac (l : List Char) : List Char := List.replicate (18 - l.length) '0' ++ l

/-- Model of `viem`'s `formatEther`: wei to a decimal string in ether, with
trailing zeros (and an all-zero fraction) removed. -/
def formatEther (wei : Nat) : String :=
  let intPart := wei / 10 ^ 18
  let frac := (padFrac (toString (wei % 10 ^ 18)).data).reverse.dropWhile (fun c => c == '0')
  if frac.isEmpty then toString intPart
  else toString intPart ++ "." ++ String.mk frac.reverse

/-! ## Multi-network transaction dispatcher -/

/-- Whether a transaction receipt lookup finds the receipt, reports that the
transaction `could not be found`, or fails some other way. -/
inductive ReceiptOutcome where
  | found (success : Bool)
  | notFound
  | otherError
deriving DecidableEq

/-- Oracle for the external chain clients: the signer balance per network,
the result of `sendTransaction` (hash or transport error) per network,
recipient and value, and the receipt lookup per network and hash. -/
structure World where
  balance : String → Nat
  send : String → String → Nat → Except String String
  receipt : String → String → ReceiptOutcome

/-- The `InsufficientFunds` message of the multi-network `makeTransaction`. -/
def drainedMessage (networkName : String) (balance : Nat) (symbol : String) : String :=
  "Faucet is currently drained for " ++ networkName ++
    ". We will refill it soon. Current balance: " ++ formatEther balance ++ " " ++ symbol

/-- `makeTransaction(to, amount, networkName)` of the multi-network
`index.ts`: registry lookup, balance check, submission.  `Except.error`
models a thrown `Error` with the given message. -/
def makeTransaction (w : World) (toAddr : String) (amount : String) (networkName : String) :
    Except String String :=
  match getNetwork networkName with
  | none => Except.error ("Network " ++ networkName ++ " not configured")
  | some network =>
    let balance := w.balance networkName
    match parseEther amount with
    | none => Except.error "Cannot convert amount to a valid number"
    | some value =>
      if balance < value then
        Except.error (drainedMessage networkName balance network.faucet.symbol)
      else
        match w.send networkName toAddr value with
        | Except.error e => Except.error e
        | Except.ok hash => Except.ok hash

/-- `getTransactionStatus(hash, networkName)` of the multi-network
`index.ts`: receipt found → `Success`/`Failed`; `could not be found` →
`Pending`; any other lookup failure → `Unknown`. -/
def getTransactionStatus (w : World) (hash : String) (networkName : String) :
    Except String String :=
  match getNetwork networkName with
  | none => Except.error ("Network " ++ networkName ++ " not configured")
  | some _ =>
    match w.receipt networkName hash with
    | .found true => Except.ok "Success"
    | .found false => Except.ok "Failed"
    | .notFound => Except.ok "Pending"
    | .otherError => Except.ok "Unknown"

/-- One entry of the `networks` array inside a parsed intent. -/
structure NetworkRequest where
  name : String
  amount : String
  symbol : String
deriving DecidableEq

/-- The per-network outcome collected by the dispatch loop. -/
inductive DispatchOutcome where
  | success (hash status : String)
  | failure (message : String)
deriving DecidableEq

/-- One element of the `results` array of `makeMultipleTransactions`. -/
structure DispatchResult where
  network : String
  result : DispatchOutcome
deriving DecidableEq

/-- The body of the `for` loop of `makeMultipleTransactions`: try to submit
and fetch the status once; any throw is caught and recorded as this network's
failure entry. -/
def dispatchOne (w : World) (toAddr : String) (r : NetworkRequest) : DispatchResult :=
  match makeTransaction w toAddr r.amount r.name with
  | Except.error e => ⟨r.name, .failure e⟩
  | Except.ok hash =>
    match getTransactionStatus w hash r.name with
    | Except.error e => ⟨r.name, .failure e⟩
    | Except.ok status => ⟨r.name, .success hash status⟩

/-- The `for` loop itself, pushing one result per request onto `results`. -/
def dispatchLoop (w : World) (toAddr : String) :
    List NetworkRequest → List DispatchResult → List DispatchResult
  | [], results => results
  | r :: rest, results => dispatchLoop w toAddr rest (results ++ [dispatchOne w toAddr r])

/-- `makeMultipleTransactions(to, networkConfigs)`. -/
def makeMultipleTransactions (w : World) (toAddr : String) (reqs : List NetworkRequest) :
    List DispatchResult :=
  dispatchLoop w toAddr reqs []

/-! ## Legacy status-polling loop (`setInterval` in `src/index.ts`) -/

/-- The `setInterval` period: 5000 milliseconds. -/
def pollIntervalMs : Nat := 5000

/-- Time (ms after submission) of the `i`-th interval callback. -/
def checkTime (i : Nat) : Nat := pollIntervalMs * (i + 1)

/-- The polling loop: `statusAt i` is the status the `i`-th callback observes;
the interval is cleared at the first non-`Pending` observation.  `fuel` bounds
the number of callbacks examined; `none` means every examined callback still
saw `Pending`. -/
def pollFrom (statusAt : Nat → String) : Nat → Nat → Option (Nat × String)
  | _, 0 => none
  | i, fuel + 1 =>
    if statusAt i = "Pending" then pollFrom statusAt (i + 1) fuel
    else some (i, statusAt i)

/-- Poll from the first interval callback. -/
def pollUntilSettled (statusAt : Nat → String) (fuel : Nat) : Option (Nat × String) :=
  pollFrom statusAt 0 fuel

/-! ## General lemmas about the embedded string primitives -/

theorem strExt {a b : String} (h : a.data = b.data) : a = b := by
  cases a; cases b; cases h; rfl

theorem strData (a b : String) : (a ++ b).data = a.data ++ b.data := rfl

theorem includes_of_parts (pre suf : String) {s mid : String} (h : s = pre ++ mid ++ suf) :
    includes s mid = true := h ▸ includes_append_middle pre mid suf

/-! ## Claim C1 — one DispatchResult per NetworkRequest, in order, each
depending only on its own request -/

theorem dispatchLoop_eq (w : World) (toAddr : String) (reqs : List NetworkRequest) :
    ∀ acc, dispatchLoop w toAddr reqs acc = acc ++ reqs.map (dispatchOne w toAddr) := by
  induction reqs with
  | nil => intro acc; simp [dispatchLoop]
  | cons r rest ih => intro acc; simp [dispatchLoop, ih]

theorem dispatchOne_network (w : World) (toAddr : String) (r : NetworkRequest) :
    (dispatchOne w toAddr r).network = r.name := by
  unfold dispatchOne
  split
  · rfl
  · split <;> rfl

/-- C1: `makeMultipleTransactions` produces exactly one `DispatchResult` per
`NetworkRequest`, in input order; every entry is computed by `dispatchOne`
from its own request alone (so a failure — unknown network, insufficient
funds, or a transport error — on one network never alters the entries of the
other networks in the batch), is labelled with its own network's name, and is
either a success (hash, status) or a failure message. -/
theorem c1_dispatch_results (w : World) (toAddr : String) (reqs : List NetworkRequest) :
    makeMultipleTransactions w toAddr reqs = reqs.map (dispatchOne w toAddr) ∧
    (makeMultipleTransactions w toAddr reqs).length = reqs.length ∧
    (∀ pre r post,
      makeMultipleTransactions w toAddr (pre ++ r :: post) =
        makeMultipleTransactions w toAddr pre ++
          dispatchOne w toAddr r :: makeMultipleTransactions w toAddr post) ∧
    (∀ r : NetworkRequest,
      (dispatchOne w toAddr r).network = r.name ∧
      ((∃ hash status, (dispatchOne w toAddr r).result = .success hash status) ∨
       (∃ message, (dispatchOne w toAddr r).result = .failure message))) := by
  have hmap : ∀ rs : List NetworkRequest,
      makeMultipleTransactions w toAddr rs = rs.map (dispatchOne w toAddr) := by
    intro rs
    simpa [makeMultipleTransactions] using dispatchLoop_eq w toAddr rs []
  refine ⟨hmap reqs, by rw [hmap]; simp, ?_, ?_⟩
  · intro pre r post
    simp [hmap]
  · intro r
    refine ⟨dispatchOne_network w toAddr r, ?_⟩
    cases hres : (dispatchOne w toAddr r).result with
    | success hash status => exact Or.inl ⟨hash, status, rfl⟩
    | failure message => exact Or.inr ⟨message, rfl⟩

/-! ## Claim C2 — the network selector -/

/-- C2: on input whose lower-casing contains `"all"` or `"both"`,
`getNetworksFromInput` returns the whole registry enumeration; otherwise it
returns exactly the registered names occurring case-insensitively in the
input, as a sublist of (hence in the order of) the registry enumeration. -/
theorem c2_selector (input : String) :
    ((includes (jsToLower input) "all" = true ∨ includes (jsToLower input) "both" = true) →
      getNetworksFromInput input = getAvailableNetworks) ∧
    (includes (jsToLower input) "all" = false → includes (jsToLower input) "both" = false →
      (getNetworksFromInput input).Sublist getAvailableNetworks ∧
      ∀ n, n ∈ getNetworksFromInput input ↔
        n ∈ getAvailableNetworks ∧ includes (jsToLower input) (jsToLower n) = true) := by
  constructor
  · rintro (h | h) <;> simp [getNetworksFromInput, h]
  · intro h1 h2
    have hcond : (includes (jsToLower input) "both" || includes (jsToLower input) "all") = false := by
      simp [h1, h2]
    constructor
    · simp only [getNetworksFromInput, hcond, Bool.false_eq_true, if_false]
      exact List.filter_sublist _
    · intro n
      simp only [getNetworksFromInput, hcond, Bool.false_eq_true, if_false]
      exact List.mem_filter

/-- Witness for C2 at two concrete inputs: an inclusive-keyword request and a
request naming two networks. -/
theorem c2_selector_witness :
    getNetworksFromInput "send tokens on all networks" = getAvailableNetworks ∧
    (getNetworksFromInput "fund sepolia and polygon").Sublist getAvailableNetworks ∧
    (∀ n, n ∈ getNetworksFromInput "fund sepolia and polygon" ↔
      n ∈ getAvailableNetworks ∧
        includes (jsToLower "fund sepolia and polygon") (jsToLower n) = true) :=
  ⟨(c2_selector "send tokens on all networks").1 (Or.inl (by decide)),
   ((c2_selector "fund sepolia and polygon").2 (by decide) (by decide)).1,
   ((c2_selector "fund sepolia and polygon").2 (by decide) (by decide)).2⟩

/-! ## Claim C7 — registry lookup

`networks` is a plain object literal, so `networks[name]` consults the
prototype chain: for the unregistered names that `Object.prototype` defines
(`"toString"`, `"constructor"`, `"__proto__"`, ...) the access returns the
inherited member — a truthy value — and not `undefined`. -/

theorem getNetwork_not_registered (n : String) (hn : n ∉ getAvailableNetworks) :
    getNetwork n = none := by
  unfold getNetwork
  rw [List.find?_eq_none.2]
  · rfl
  · intro p hp hbeq
    exact hn (by
      have : p.1 = n := by simpa using hbeq
      exact this ▸ List.mem_map_of_mem Prod.fst hp)

/-- C7 counterexample: `"toString"` is not a registered network name, yet
`networks["toString"]` is the inherited `Object.prototype.toString` — a
truthy value, not `undefined`. -/
theorem c7_lookup_counterexample :
    "toString" ∉ getAvailableNetworks ∧
    getNetworkJs "toString" = PropertyValue.inherited ∧
    getNetworkJs "toString" ≠ PropertyValue.undef := by decide

/-- C7 amended: every registered name looks up to its registered
`NetworkConfig`, whose `faucet.symbol` is non-empty and whose chain id is the
registered chain's id (the registered ids are listed explicitly); every name
that is neither registered nor an `Object.prototype` property name looks up
to `undefined`, and the lookup is a total function that cannot throw; but for
the property names inherited from `Object.prototype` (such as `"toString"`)
the lookup returns the inherited member — a truthy value that is not a
`NetworkConfig` — instead of `undefined`. -/
theorem c7_registry_lookup_js :
    (∀ n ∈ getAvailableNetworks, ∃ cfg, getNetworkJs n = PropertyValue.config cfg ∧
      getNetwork n = some cfg ∧ cfg.faucet.symbol ≠ "" ∧ (n, cfg) ∈ networks) ∧
    (networks.map (fun p => (p.1, p.2.chain.id)) =
      [("sepolia", 11155111), ("abstract", 11124), ("optimism-sepolia", 11155420),
       ("polygon", 137), ("shardeum-atomium", 8082)]) ∧
    (∀ n, n ∉ getAvailableNetworks → n ∉ objectPrototypeProps →
      getNetworkJs n = PropertyValue.undef) ∧
    (∀ n, n ∉ getAvailableNetworks → n ∈ objectPrototypeProps →
      getNetworkJs n = PropertyValue.inherited) := by
  refine ⟨?_, by decide, ?_, ?_⟩
  · intro n hn
    have hn' : n = "sepolia" ∨ n = "abstract" ∨ n = "optimism-sepolia" ∨
        n = "polygon" ∨ n = "shardeum-atomium" := by
      simpa [getAvailableNetworks, networks] using hn
    rcases hn' with rfl | rfl | rfl | rfl | rfl
    · exact ⟨_, rfl, rfl, by decide, by decide⟩
    · exact ⟨_, rfl, rfl, by decide, by decide⟩
    · exact ⟨_, rfl, rfl, by decide, by decide⟩
    · exact ⟨_, rfl, rfl, by decide, by decide⟩
    · exact ⟨_, rfl, rfl, by decide, by decide⟩
  · intro n hn hproto
    unfold getNetworkJs
    rw [getNetwork_not_registered n hn]
    simp [hproto]
  · intro n hn hproto
    unfold getNetworkJs
    rw [getNetwork_not_registered n hn]
    simp [hproto]

/-- Witness for C7's amended claim: a registered name (`"sepolia"`), an
unregistered non-prototype name (`"foo"`), and an inherited prototype name
(`"toString"`). -/
theorem c7_registry_lookup_js_witness :
    (∃ cfg, getNetworkJs "sepolia" = PropertyValue.config cfg ∧
      getNetwork "sepolia" = some cfg ∧ cfg.faucet.symbol ≠ "" ∧
      ("sepolia", cfg) ∈ networks) ∧
    getNetworkJs "foo" = PropertyValue.undef ∧
    getNetworkJs "toString" = PropertyValue.inherited :=
  ⟨c7_registry_lookup_js.1 "sepolia" (by decide),
   c7_registry_lookup_js.2.2.1 "foo" (by decide) (by decide),
   c7_registry_lookup_js.2.2.2 "toString" (by decide) (by decide)⟩

/-! ## Claim C4 — strict recipient-address validation -/

/-- C4: with no (truthy) `error` field, a parsed response whose `to` field
fails the `/^0x[a-fA-F0-9]\x7b40\x7d$/i` test is rejected with
`MalformedResponse`, whatever the other fields look like; and every accepted
response is returned unchanged (no truncation or padding) with a `to` field
that passes the test. -/
theorem c4_address_validation (j : Json)
    (herr : truthyOpt (getField j "error") = false) :
    (addressTestPasses (getField j "to") = false →
      parseAIResponseJson j = Except.error ParseError.malformedResponse) ∧
    (∀ r, parseAIResponseJson j = Except.ok r →
      r = j ∧ addressTestPasses (getField j "to") = true) := by
  constructor
  · intro haddr
    by_cases hmiss : (!truthyOpt (getField j "to") || !truthyOpt (getField j "networks")
        || !truthyOpt (getField j "explanation")) = true
    · simp [parseAIResponseJson, herr, hmiss]
    · simp [parseAIResponseJson, herr, hmiss, haddr]
  · intro r hr
    unfold parseAIResponseJson at hr
    rw [herr] at hr
    simp only [Bool.false_eq_true, if_false] at hr
    split at hr
    · cases hr
    · split at hr
      · cases hr
      · rename_i haddr
        cases hr
        exact ⟨rfl, by simpa using haddr⟩

/-- Witness for C4: a response with a non-hex recipient and well-formed
remaining fields is rejected with `MalformedResponse`. -/
theorem c4_address_validation_witness :
    parseAIResponseJson
      (Json.obj [("to", Json.str "0xZZZZZZZZZZZZZZZZZZZZZZZZZZZZZZZZZZZZZZZZ"),
        ("networks", Json.arr [Json.obj [("name", Json.str "sepolia")]]),
        ("explanation", Json.str "send test tokens")]) =
      Except.error ParseError.malformedResponse :=
  (c4_address_validation
    (Json.obj [("to", Json.str "0xZZZZZZZZZZZZZZZZZZZZZZZZZZZZZZZZZZZZZZZZ"),
      ("networks", Json.arr [Json.obj [("name", Json.str "sepolia")]]),
      ("explanation", Json.str "send test tokens")]) rfl).1 rfl

/-! ## Claim C5 — the `error` field

The code tests the `error` property for truthiness, not for presence: an
object that contains a falsy `error` field (for example `\x7b"error": ""\x7d`)
is not routed to `UnderstandingFailure`. -/

/-- C5 counterexample: the response `\x7b"error": ""\x7d` contains an `error`
field, yet the parser fails with `MalformedResponse`, not
`UnderstandingFailure`. -/
theorem c5_error_field_counterexample :
    parseAIResponseJson (Json.obj [("error", Json.str "")]) =
      Except.error ParseError.malformedResponse ∧
    parseAIResponseJson (Json.obj [("error", Json.str "")]) ≠
      Except.error ParseError.understandingFailure := by
  refine ⟨rfl, ?_⟩
  intro h
  rw [show parseAIResponseJson (Json.obj [("error", Json.str "")]) =
      Except.error ParseError.malformedResponse from rfl] at h
  exact ParseError.noConfusion (Except.error.inj h)

/-- C5 amended: for every model response that `JSON.parse` decodes to an
object with a truthy `error` field (in particular a non-empty error string),
`parseAIResponse` fails with `UnderstandingFailure` and returns no (partial)
intent; a falsy `error` value is treated as if the field were absent. -/
theorem c5_truthy_error_understanding (jsonParse : String → Option Json)
    (response : String) (j : Json)
    (hparse : jsonParse (jsTrim (stripFences response)) = some j)
    (herr : truthyOpt (getField j "error") = true) :
    parseAIResponse jsonParse response = Except.error ParseError.understandingFailure := by
  unfold parseAIResponse
  rw [hparse]
  simp [parseAIResponseJson, herr]

/-- Witness for C5's amended claim: a response decoding to
`\x7b"error": "cannot interpret"\x7d`. -/
theorem c5_truthy_error_understanding_witness :
    parseAIResponse (fun _ => some (Json.obj [("error", Json.str "cannot interpret")]))
      "anything" = Except.error ParseError.understandingFailure :=
  c5_truthy_error_understanding _ "anything"
    (Json.obj [("error", Json.str "cannot interpret")]) rfl rfl

/-! ## Claim C10 — truthiness, not key presence -/

/-- C10: with no truthy `error` field, a response in which `to`, `networks`
or `explanation` is present but falsy (empty string, `0`, `false`, `null`) is
rejected with `MalformedResponse`, exactly as if the field were missing. -/
theorem c10_falsy_required_field (j v : Json)
    (herr : truthyOpt (getField j "error") = false)
    (hfield : getField j "to" = some v ∨ getField j "networks" = some v ∨
      getField j "explanation" = some v)
    (hfalsy : truthy v = false) :
    parseAIResponseJson j = Except.error ParseError.malformedResponse := by
  have hmiss : (!truthyOpt (getField j "to") || !truthyOpt (getField j "networks")
      || !truthyOpt (getField j "explanation")) = true := by
    rcases hfield with h | h | h <;> simp [h, truthyOpt, hfalsy]
  simp [parseAIResponseJson, herr, hmiss]

/-- Witness for C10: an empty-string recipient with the other fields
well-formed. -/
theorem c10_falsy_required_field_witness :
    parseAIResponseJson
      (Json.obj [("to", Json.str ""),
        ("networks", Json.arr [Json.obj [("name", Json.str "sepolia")]]),
        ("explanation", Json.str "send test tokens")]) =
      Except.error ParseError.malformedResponse :=
  c10_falsy_required_field
    (Json.obj [("to", Json.str ""),
      ("networks", Json.arr [Json.obj [("name", Json.str "sepolia")]]),
      ("explanation", Json.str "send test tokens")])
    (Json.str "") rfl (Or.inl rfl) rfl

/-! ## Claim C6 — the legacy regex fallback -/

/-- C6: in the legacy parser, whenever primary structured decoding fails
(`JSON.parse` throws, or the decoded value does not have string `to`,
`amount` and `explanation` fields), the regex fallback decides the outcome:
the result is exactly `legacyFallback response`, and the parse fails with
`MalformedResponse` precisely when one of the three extractors
(`to:`, `amount:`, `explanation:`) finds no match. -/
theorem c6_regex_fallback (jsonParse : String → Option Json) (response : String)
    (hprimary : ∀ j, jsonParse response = some j → legacyDecode j = none) :
    parseAIResponseLegacy jsonParse response = legacyFallback response ∧
    (parseAIResponseLegacy jsonParse response = Except.error ParseError.malformedResponse ↔
      matchToPattern response = none ∨ matchAmountPattern response = none ∨
        matchExplanationPattern response = none) := by
  have heq : parseAIResponseLegacy jsonParse response = legacyFallback response := by
    unfold parseAIResponseLegacy
    cases hj : jsonParse response with
    | none => rfl
    | some j => simp [hprimary j hj]
  refine ⟨heq, ?_⟩
  rw [heq]
  unfold legacyFallback
  rcases hto : matchToPattern response with _ | t <;>
    rcases ham : matchAmountPattern response with _ | a <;>
      rcases hex : matchExplanationPattern response with _ | e <;> simp

/-- Witness for C6: primary decoding fails (`JSON.parse` throws) on a
response carrying `to:` / `amount:` / `explanation:` lines, and the fallback
recovers the three fields. -/
theorem c6_regex_fallback_witness :
    parseAIResponseLegacy (fun _ => none) "to: 0xabc amount: 1.5 explanation: send test tokens" =
      legacyFallback "to: 0xabc amount: 1.5 explanation: send test tokens" ∧
    legacyFallback "to: 0xabc amount: 1.5 explanation: send test tokens" =
      Except.ok ⟨"0xabc", "1.5", "send test tokens"⟩ :=
  ⟨(c6_regex_fallback (fun _ => none) "to: 0xabc amount: 1.5 explanation: send test tokens"
      (fun _j h => nomatch h)).1,
   rfl⟩

/-! ## Claim C3 — the insufficient-funds message

The multi-network `makeTransaction` replaced the legacy message
`Insufficient funds. Balance: ... Trying to send: ...` with a friendlier
`Faucet is currently drained ...` text that reports the current balance (and
token symbol) but no longer the requested amount. -/

theorem strAppend_assoc (a b c : String) : (a ++ b) ++ c = a ++ (b ++ c) :=
  strExt (by simp [strData])

theorem strAppend_empty (a : String) : a ++ "" = a :=
  strExt (by simp [strData])

/-- C3 counterexample: with a zero balance and a requested amount of
`"0.01"`, the multi-network dispatcher's insufficient-funds failure message
does not contain the requested amount. -/
theorem c3_message_counterexample :
    makeTransaction
        ⟨fun _ => 0, fun _ _ _ => Except.ok "0xhash", fun _ _ => ReceiptOutcome.notFound⟩
        "0x2d6DA915F00dcA50b06a60fca010949382f4e0e8" "0.01" "sepolia" =
      Except.error
        "Faucet is currently drained for sepolia. We will refill it soon. Current balance: 0 ETH" ∧
    includes
      "Faucet is currently drained for sepolia. We will refill it soon. Current balance: 0 ETH"
      "0.01" = false :=
  ⟨rfl, by decide⟩

/-- C3 amended: when the signer's balance on the target chain (in wei) is
strictly below the requested amount, the multi-network `makeTransaction`
fails with the drained-faucet message, which contains the current balance in
human units (`formatEther`), the network name and the token symbol — but not
necessarily the requested amount. -/
theorem c3_drained_message (w : World) (toAddr amount networkName : String)
    (cfg : NetworkConfig) (value : Nat)
    (hcfg : getNetwork networkName = some cfg)
    (hval : parseEther amount = some value)
    (hlt : w.balance networkName < value) :
    makeTransaction w toAddr amount networkName =
      Except.error (drainedMessage networkName (w.balance networkName) cfg.faucet.symbol) ∧
    includes (drainedMessage networkName (w.balance networkName) cfg.faucet.symbol)
      (formatEther (w.balance networkName)) = true ∧
    includes (drainedMessage networkName (w.balance networkName) cfg.faucet.symbol)
      networkName = true ∧
    includes (drainedMessage networkName (w.balance networkName) cfg.faucet.symbol)
      cfg.faucet.symbol = true := by
  refine ⟨by simp [makeTransaction, hcfg, hval, hlt], ?_, ?_, ?_⟩
  · exact includes_of_parts
      ("Faucet is currently drained for " ++ networkName ++
        ". We will refill it soon. Current balance: ")
      (" " ++ cfg.faucet.symbol)
      (by simp [drainedMessage, strAppend_assoc])
  · exact includes_of_parts "Faucet is currently drained for "
      (". We will refill it soon. Current balance: " ++
        formatEther (w.balance networkName) ++ " " ++ cfg.faucet.symbol)
      (by simp [drainedMessage, strAppend_assoc])
  · exact includes_of_parts
      ("Faucet is currently drained for " ++ networkName ++
        ". We will refill it soon. Current balance: " ++ formatEther (w.balance networkName) ++ " ")
      ""
      (by simp [drainedMessage, strAppend_assoc, strAppend_empty])

/-- Witness for C3's amended claim: a 0.005-ether balance against a 0.01
request on `"sepolia"`. -/
theorem c3_drained_message_witness :
    makeTransaction
        ⟨fun _ => 5000000000000000, fun _ _ _ => Except.ok "0xhash",
          fun _ _ => ReceiptOutcome.notFound⟩
        "0xaddr" "0.01" "sepolia" =
      Except.error (drainedMessage "sepolia" 5000000000000000 "ETH") ∧
    includes (drainedMessage "sepolia" 5000000000000000 "ETH")
      (formatEther 5000000000000000) = true ∧
    includes (drainedMessage "sepolia" 5000000000000000 "ETH") "sepolia" = true ∧
    includes (drainedMessage "sepolia" 5000000000000000 "ETH") "ETH" = true :=
  c3_drained_message
    ⟨fun _ => 5000000000000000, fun _ _ _ => Except.ok "0xhash",
      fun _ _ => ReceiptOutcome.notFound⟩
    "0xaddr" "0.01" "sepolia" (createNetworkConfig sepolia ⟨"ETH", "0.01"⟩)
    10000000000000000 rfl rfl (by decide)

/-! ## Claim C8 — status polling

Only the legacy `src/index.ts` polls: its `setInterval(..., 5000)` callback
re-checks the status until the first non-`Pending` observation and then
clears the interval.  The multi-network dispatcher checks the status exactly
once, immediately after submission, and reports the result — `Pending`
included — as final. -/

/-- C8 counterexample: in the multi-network flow a transaction whose receipt
is not yet available produces a final `DispatchResult` with status
`"Pending"`; its status is checked once and never re-checked. -/
theorem c8_pending_reported_final :
    makeMultipleTransactions
        ⟨fun _ => 10 ^ 18, fun _ _ _ => Except.ok "0xhash", fun _ _ => ReceiptOutcome.notFound⟩
        "0x2d6DA915F00dcA50b06a60fca010949382f4e0e8" [⟨"sepolia", "0.01", "ETH"⟩] =
      [⟨"sepolia", DispatchOutcome.success "0xhash" "Pending"⟩] := by
  decide

theorem pollFrom_spec (statusAt : Nat → String) :
    ∀ (fuel i k : Nat) (s : String), pollFrom statusAt i fuel = some (k, s) →
      s = statusAt k ∧ s ≠ "Pending" ∧ i ≤ k ∧ ∀ j, i ≤ j → j < k → statusAt j = "Pending" := by
  intro fuel
  induction fuel with
  | zero => intro i k s h; simp [pollFrom] at h
  | succ f ih =>
    intro i k s h
    by_cases hp : statusAt i = "Pending"
    · rw [show pollFrom statusAt i (f + 1) = pollFrom statusAt (i + 1) f from by
        simp [pollFrom, hp]] at h
      obtain ⟨h1, h2, h3, h4⟩ := ih (i + 1) k s h
      refine ⟨h1, h2, by omega, ?_⟩
      intro j hij hjk
      rcases Nat.lt_or_ge j (i + 1) with hj | hj
      · have hji : j = i := by omega
        exact hji ▸ hp
      · exact h4 j hj hjk
    · have hk : k = i ∧ s = statusAt i := by
        simpa [pollFrom, hp, eq_comm] using h
      obtain ⟨rfl, rfl⟩ := hk
      exact ⟨rfl, hp, Nat.le_refl _, fun j h1 h2 => absurd (Nat.lt_of_le_of_lt h1 h2)
        (Nat.lt_irrefl _)⟩

/-- C8 amended: the legacy flow's interval callbacks run at a fixed 5000 ms
spacing and re-check the status until the first non-`Pending` observation
(every earlier check saw `Pending`, and polling stops exactly there); the
multi-network dispatcher instead checks the status exactly once, immediately,
and reports a still-`Pending` transaction as final. -/
theorem c8_polling_behavior (statusAt : Nat → String) (fuel k : Nat) (s : String)
    (hpoll : pollUntilSettled statusAt fuel = some (k, s)) :
    (s = statusAt k ∧ s ≠ "Pending" ∧ ∀ j, j < k → statusAt j = "Pending") ∧
    (∀ i, checkTime (i + 1) = checkTime i + pollIntervalMs) ∧
    (∀ (w : World) (toAddr : String) (r : NetworkRequest) (value : Nat) (hash : String)
      (cfg : NetworkConfig),
      getNetwork r.name = some cfg →
      parseEther r.amount = some value →
      ¬ w.balance r.name < value →
      w.send r.name toAddr value = Except.ok hash →
      w.receipt r.name hash = ReceiptOutcome.notFound →
      dispatchOne w toAddr r = ⟨r.name, DispatchOutcome.success hash "Pending"⟩) := by
  obtain ⟨h1, h2, _, h4⟩ := pollFrom_spec statusAt fuel 0 k s hpoll
  refine ⟨⟨h1, h2, fun j hj => h4 j (Nat.zero_le j) hj⟩,
    fun i => by simp [checkTime, pollIntervalMs]; ring, ?_⟩
  intro w toAddr r value hash cfg hcfg hval hbal hsend hrec
  simp [dispatchOne, makeTransaction, getTransactionStatus, hcfg, hval, hbal, hsend, hrec]

/-- Witness for C8's amended claim: a status sequence that settles at the
third check, and a concrete single-check `Pending` dispatch. -/
theorem c8_polling_behavior_witness :
    pollUntilSettled (fun i => if i < 2 then "Pending" else "Success") 5 =
      some (2, "Success") ∧
    ("Success" : String) ≠ "Pending" ∧
    (fun i => if i < 2 then "Pending" else "Success") 1 = "Pending" ∧
    checkTime 1 = checkTime 0 + pollIntervalMs ∧
    dispatchOne
        ⟨fun _ => 10 ^ 18, fun _ _ _ => Except.ok "0xhash", fun _ _ => ReceiptOutcome.notFound⟩
        "0xaddr" ⟨"sepolia", "0.01", "ETH"⟩ =
      ⟨"sepolia", DispatchOutcome.success "0xhash" "Pending"⟩ := by
  have H := c8_polling_behavior (fun i => if i < 2 then "Pending" else "Success") 5 2 "Success"
    (by decide)
  exact ⟨by decide, H.1.2.1, H.1.2.2 1 (by decide), H.2.1 0,
    H.2.2 ⟨fun _ => 10 ^ 18, fun _ _ _ => Except.ok "0xhash", fun _ _ => ReceiptOutcome.notFound⟩
      "0xaddr" ⟨"sepolia", "0.01", "ETH"⟩ 10000000000000000 "0xhash"
      (createNetworkConfig sepolia ⟨"ETH", "0.01"⟩) rfl rfl (by decide) rfl rfl⟩

/-! ## Claim C9 — markdown code fences are stripped before JSON decoding -/

theorem prefix_head_eq {a c : Char} {as l : List Char}
    (h : prefixB (a :: as) (c :: l) = true) : a = c ∧ prefixB as l = true := by
  simpa [prefixB] using h

theorem fenceOpenNl_eq : fenceOpenNl = tick :: "``json\n".data := by decide

theorem fenceOpen_eq : fenceOpen = tick :: "``json".data := by decide

theorem fenceNlClose_eq : fenceNlClose = '\n' :: fenceTicks := by decide

theorem fenceTicks_eq : fenceTicks = tick :: "``".data := by decide

theorem fenceMatch_cons_none {c : Char} {cs : List Char}
    (hc : c ≠ tick) (hnext : ∀ d t, cs = d :: t → d ≠ tick) :
    fenceMatch (c :: cs) = none := by
  have h1 : prefixB fenceOpenNl (c :: cs) = false := by
    cases hb : prefixB fenceOpenNl (c :: cs)
    · rfl
    · rw [fenceOpenNl_eq] at hb
      exact absurd (prefix_head_eq hb).1.symm hc
  have h2 : prefixB fenceOpen (c :: cs) = false := by
    cases hb : prefixB fenceOpen (c :: cs)
    · rfl
    · rw [fenceOpen_eq] at hb
      exact absurd (prefix_head_eq hb).1.symm hc
  have h4 : prefixB fenceTicks (c :: cs) = false := by
    cases hb : prefixB fenceTicks (c :: cs)
    · rfl
    · rw [fenceTicks_eq] at hb
      exact absurd (prefix_head_eq hb).1.symm hc
  have h3 : prefixB fenceNlClose (c :: cs) = false := by
    cases hb : prefixB fenceNlClose (c :: cs)
    · rfl
    · rw [fenceNlClose_eq] at hb
      obtain ⟨_, hb2⟩ := prefix_head_eq hb
      cases cs with
      | nil =>
        rw [fenceTicks_eq] at hb2
        simp [prefixB] at hb2
      | cons d t =>
        rw [fenceTicks_eq] at hb2
        exact absurd (prefix_head_eq hb2).1.symm (hnext d t rfl)
  unfold fenceMatch
  simp [h1, h2, h3, h4]

theorem go_step_some {fuel : Nat} {l rest : List Char} (h : fenceMatch l = some rest) :
    stripFencesGo (fuel + 1) l = stripFencesGo fuel rest := by
  cases l with
  | nil => rw [show fenceMatch [] = none from by decide] at h; cases h
  | cons c cs => simp [stripFencesGo, h]

theorem go_step_none {fuel : Nat} {c : Char} {cs : List Char}
    (h : fenceMatch (c :: cs) = none) :
    stripFencesGo (fuel + 1) (c :: cs) = c :: stripFencesGo fuel cs := by
  simp [stripFencesGo, h]

theorem go_id : ∀ (l : List Char), tick ∉ l → ∀ fuel, l.length ≤ fuel →
    stripFencesGo fuel l = l := by
  intro l
  induction l with
  | nil => intro _ fuel _; cases fuel <;> rfl
  | cons c cs ih =>
    intro hl fuel hf
    have hc : c ≠ tick := fun h => hl (by rw [← h]; exact List.mem_cons_self c cs)
    have htail : tick ∉ cs := fun h => hl (List.mem_cons_of_mem c h)
    have hnext : ∀ d t, cs = d :: t → d ≠ tick := by
      intro d t hdt hd
      exact htail (by rw [hdt, ← hd]; exact List.mem_cons_self d t)
    cases fuel with
    | zero => simp at hf
    | succ f =>
      have hcs : cs.length ≤ f := by simp at hf; omega
      rw [go_step_none (fenceMatch_cons_none hc hnext), ih htail f hcs]

theorem go_close : ∀ (l : List Char), tick ∉ l → ∀ fuel, l.length + 4 ≤ fuel →
    stripFencesGo fuel (l ++ fenceNlClose) = l := by
  intro l
  induction l with
  | nil =>
    intro _ fuel hf
    obtain ⟨f, rfl⟩ : ∃ f, fuel = f + 1 := ⟨fuel - 1, by omega⟩
    rw [List.nil_append, go_step_some (show fenceMatch fenceNlClose = some [] from by decide)]
    cases f <;> rfl
  | cons c cs ih =>
    intro hl fuel hf
    obtain ⟨f, rfl⟩ : ∃ f, fuel = f + 1 := ⟨fuel - 1, by omega⟩
    have hc : c ≠ tick := fun h => hl (by rw [← h]; exact List.mem_cons_self c cs)
    have htail : tick ∉ cs := fun h => hl (List.mem_cons_of_mem c h)
    have hnext : ∀ d t, cs ++ fenceNlClose = d :: t → d ≠ tick := by
      intro d t hdt hd
      cases cs with
      | nil =>
        rw [List.nil_append, fenceNlClose_eq] at hdt
        injection hdt with hdt1 _
        exact absurd (hdt1.trans hd) (by decide)
      | cons e es =>
        rw [List.cons_append] at hdt
        injection hdt with hdt1 _
        exact htail (by rw [← (hdt1.trans hd)]; exact List.mem_cons_self e es)
    have hcs : cs.length + 4 ≤ f := by simp at hf; omega
    rw [List.cons_append, go_step_none (fenceMatch_cons_none hc hnext), ih htail f hcs]

theorem fenceMatch_openNl_append (X : List Char) :
    fenceMatch (fenceOpenNl ++ X) = some X := by
  have h1 : prefixB fenceOpenNl (fenceOpenNl ++ X) = true :=
    (prefixB_iff _ _).2 (List.prefix_append _ _)
  unfold fenceMatch
  simp [h1, List.drop_left]

theorem stripFences_wrapped (p : String) (hp : tick ∉ p.data) :
    stripFences ("```json\n" ++ p ++ "\n```") = String.mk p.data := by
  unfold stripFences
  have hdata : ("```json\n" ++ p ++ "\n```").data = fenceOpenNl ++ (p.data ++ fenceNlClose) := by
    show ("```json\n".data ++ p.data) ++ "\n```".data = _
    rw [List.append_assoc]
    rfl
  rw [hdata]
  have hlen : (fenceOpenNl ++ (p.data ++ fenceNlClose)).length = (p.data.length + 11) + 1 := by
    rw [List.length_append, List.length_append,
      show fenceOpenNl.length = 8 from by decide, show fenceNlClose.length = 4 from by decide]
    omega
  rw [hlen, go_step_some (fenceMatch_openNl_append _),
    go_close p.data hp (p.data.length + 11) (by omega)]

theorem stripFences_id (p : String) (hp : tick ∉ p.data) :
    stripFences p = String.mk p.data := by
  unfold stripFences
  exact congrArg String.mk (go_id p.data hp _ (Nat.le_refl _))

/-- C9: a model response consisting of a backtick-free JSON payload wrapped
in a ```` ```json ... ``` ```` markdown code fence parses exactly like the
bare payload: the fence markers are deleted and the remainder trimmed before
`JSON.parse` runs, so both responses yield the same result for every
`JSON.parse` oracle. -/
theorem c9_fence_stripping (jsonParse : String → Option Json) (p : String)
    (hp : tick ∉ p.data) :
    parseAIResponse jsonParse ("```json\n" ++ p ++ "\n```") = parseAIResponse jsonParse p := by
  unfold parseAIResponse
  rw [stripFences_wrapped p hp, stripFences_id p hp]

/-- Witness for C9 at a concrete backtick-free payload. -/
theorem c9_fence_stripping_witness :
    parseAIResponse (fun _ => none) ("```json\n" ++ "payload" ++ "\n```") =
      parseAIResponse (fun _ => none) "payload" :=
  c9_fence_stripping (fun _ => none) "payload" (by decide)

end AIFaucet
